import Mathlib

/-!
Verification development for the LogicMonitor core tool extension
(`src/extension.ts`).  The TypeScript source is shallowly embedded:
pure computations become Lean functions, the network is abstracted as a
response function handed to each loop, machine words are `Nat` reduced
modulo `2 ^ 32`, and JavaScript strings are modelled through their
character lists.
-/

namespace LMCoreTool

/-! ### JavaScript string primitives

The embedding works on `List Char` wherever the TypeScript uses the
single-character string operations `split('\n')`, `join('\n')`,
`replace(/\n/g, '\r')`, `startsWith`, and `includes`. -/

/-- `startsList l p` is JavaScript `l.startsWith(p)` on character lists. -/
def startsList : List Char → List Char → Bool
  | _, [] => true
  | [], _ :: _ => false
  | c :: cs, p :: ps => c = p && startsList cs ps

/-- `includesList l p` is JavaScript `l.includes(p)` on character lists. -/
def includesList : List Char → List Char → Bool
  | [], pat => pat.isEmpty
  | x :: cs, pat => startsList (x :: cs) pat || includesList cs pat

/-- `strStartsWith s p` models JavaScript `s.startsWith(p)`. -/
def strStartsWith (s pat : String) : Bool := startsList s.data pat.data

/-- `strIncludes s p` models JavaScript `s.includes(p)`. -/
def strIncludes (s pat : String) : Bool := includesList s.data pat.data

/-- Helper for `splitCharList`, carrying the current piece reversed. -/
def splitCharAux (c : Char) : List Char → List Char → List (List Char)
  | [], cur => [cur.reverse]
  | x :: xs, cur =>
    if x = c then cur.reverse :: splitCharAux c xs []
    else splitCharAux c xs (x :: cur)

/-- `splitCharList c l` models JavaScript `String.prototype.split` with a
single-character separator, on character lists. -/
def splitCharList (c : Char) (l : List Char) : List (List Char) :=
  splitCharAux c l []

/-- `joinCharLists sep ls` models JavaScript `Array.prototype.join` on
character lists. -/
def joinCharLists (sep : List Char) : List (List Char) → List Char
  | [] => []
  | [x] => x
  | x :: y :: xs => x ++ sep ++ joinCharLists sep (y :: xs)

/-! ### SHA-256, HMAC-SHA256, hex, base64, UTF-8

`generateLMv1AuthHeader` in `extension.ts` calls Node's
`crypto.createHmac('sha256', apiKey).update(...).digest('hex')` and then
`Buffer.from(hex).toString('base64')`.  These primitives are embedded from
their specifications (FIPS 180-4, RFC 2104, RFC 4648, UTF-8); bytes are
`Nat` below 256 and 32-bit words are `Nat` below `2 ^ 32`. -/

/-- Reduce a natural number to a 32-bit word. -/
def w32 (n : Nat) : Nat := n % 4294967296

/-- Right rotation of a 32-bit word by `k` bits. -/
def rotr32 (k n : Nat) : Nat := (n >>> k) ||| w32 (n <<< (32 - k))

/-- SHA-256 big sigma 0. -/
def bsig0 (x : Nat) : Nat := rotr32 2 x ^^^ rotr32 13 x ^^^ rotr32 22 x

/-- SHA-256 big sigma 1. -/
def bsig1 (x : Nat) : Nat := rotr32 6 x ^^^ rotr32 11 x ^^^ rotr32 25 x

/-- SHA-256 small sigma 0. -/
def ssig0 (x : Nat) : Nat := rotr32 7 x ^^^ rotr32 18 x ^^^ (x >>> 3)

/-- SHA-256 small sigma 1. -/
def ssig1 (x : Nat) : Nat := rotr32 17 x ^^^ rotr32 19 x ^^^ (x >>> 10)

/-- SHA-256 choice function. -/
def chF (x y z : Nat) : Nat := (x &&& y) ^^^ ((x ^^^ 4294967295) &&& z)

/-- SHA-256 majority function. -/
def majF (x y z : Nat) : Nat := (x &&& y) ^^^ (x &&& z) ^^^ (y &&& z)

/-- The 64 SHA-256 round constants. -/
def sha256K : List Nat :=
  [1116352408, 1899447441, 3049323471, 3921009573, 961987163,
   1508970993, 2453635748, 2870763221, 3624381080, 310598401,
   607225278, 1426881987, 1925078388, 2162078206, 2614888103,
   3248222580, 3835390401, 4022224774, 264347078, 604807628,
   770255983, 1249150122, 1555081692, 1996064986, 2554220882,
   2821834349, 2952996808, 3210313671, 3336571891, 3584528711,
   113926993, 338241895, 666307205, 773529912, 1294757372,
   1396182291, 1695183700, 1986661051, 2177026350, 2456956037,
   2730485921, 2820302411, 3259730800, 3345764771, 3516065817,
   3600352804, 4094571909, 275423344, 430227734, 506948616,
   659060556, 883997877, 958139571, 1322822218, 1537002063,
   1747873779, 1955562222, 2024104815, 2227730452, 2361852424,
   2428436474, 2756734187, 3204031479, 3329325298]

/-- The eight-word SHA-256 working state. -/
structure Hash8 where
  a : Nat
  b : Nat
  c : Nat
  d : Nat
  e : Nat
  f : Nat
  g : Nat
  h : Nat
deriving Repr, DecidableEq

/-- The SHA-256 initial hash value. -/
def sha256H0 : Hash8 :=
  ⟨1779033703, 3144134277, 1013904242, 2773480762,
   1359893119, 2600822924, 528734635, 1541459225⟩

/-- One SHA-256 compression round. -/
def sha256Round (st : Hash8) (k w : Nat) : Hash8 :=
  let t1 := w32 (st.h + bsig1 st.e + chF st.e st.f st.g + k + w)
  let t2 := w32 (bsig0 st.a + majF st.a st.b st.c)
  ⟨w32 (t1 + t2), st.a, st.b, st.c, w32 (st.d + t1), st.e, st.f, st.g⟩

/-- Extend 16 message words to the 64-word SHA-256 message schedule. -/
def sha256Schedule (block : List Nat) : Array Nat :=
  (List.range 48).foldl
    (fun acc i =>
      acc.push (w32 (ssig1 (acc.getD (i + 14) 0) + acc.getD (i + 9) 0 +
        ssig0 (acc.getD (i + 1) 0) + acc.getD i 0)))
    block.toArray

/-- Compress one 16-word block into the running hash. -/
def sha256Compress (st : Hash8) (block : List Nat) : Hash8 :=
  let ws := sha256Schedule block
  let fin := (List.range 64).foldl
    (fun s i => sha256Round s (sha256K.getD i 0) (ws.getD i 0)) st
  ⟨w32 (st.a + fin.a), w32 (st.b + fin.b), w32 (st.c + fin.c),
   w32 (st.d + fin.d), w32 (st.e + fin.e), w32 (st.f + fin.f),
   w32 (st.g + fin.g), w32 (st.h + fin.h)⟩

/-- The 8-byte big-endian encoding of a number (the SHA-256 length field). -/
def be64 (n : Nat) : List Nat :=
  [(n >>> 56) % 256, (n >>> 48) % 256, (n >>> 40) % 256, (n >>> 32) % 256,
   (n >>> 24) % 256, (n >>> 16) % 256, (n >>> 8) % 256, n % 256]

/-- The 4-byte big-endian encoding of a 32-bit word. -/
def be32 (n : Nat) : List Nat :=
  [(n >>> 24) % 256, (n >>> 16) % 256, (n >>> 8) % 256, n % 256]

/-- SHA-256 padding: append `0x80`, zeros, and the 64-bit message bit length. -/
def sha256Pad (msg : List Nat) : List Nat :=
  let len := msg.length
  let zeros := (119 - len % 64) % 64
  msg ++ 0x80 :: List.replicate zeros 0 ++ be64 (len * 8)

/-- Group bytes into 32-bit big-endian words. -/
def bytesToWords : List Nat → List Nat
  | a :: b :: c :: d :: rest => (((a * 256 + b) * 256 + c) * 256 + d) :: bytesToWords rest
  | _ => []

/-- Group a word list into 16-word blocks; `fuel` bounds the recursion and is
passed as the list length. -/
def wordBlocks : Nat → List Nat → List (List Nat)
  | 0, _ => []
  | _ + 1, [] => []
  | fuel + 1, w :: ws => ((w :: ws).take 16) :: wordBlocks fuel ((w :: ws).drop 16)

/-- SHA-256 of a byte list, as a 32-byte list (FIPS 180-4). -/
def sha256 (msg : List Nat) : List Nat :=
  let ws := bytesToWords (sha256Pad msg)
  let fin := (wordBlocks ws.length ws).foldl sha256Compress sha256H0
  be32 fin.a ++ be32 fin.b ++ be32 fin.c ++ be32 fin.d ++
  be32 fin.e ++ be32 fin.f ++ be32 fin.g ++ be32 fin.h

/-- HMAC-SHA256 with byte-list key and message (RFC 2104). -/
def hmacSha256 (key msg : List Nat) : List Nat :=
  let k0 := if 64 < key.length then sha256 key else key
  let k := k0 ++ List.replicate (64 - k0.length) 0
  let ipad := k.map (fun b => b ^^^ 0x36)
  let opad := k.map (fun b => b ^^^ 0x5c)
  sha256 (opad ++ sha256 (ipad ++ msg))

/-- UTF-8 encoding of one character. -/
def utf8EncodeChar (c : Char) : List Nat :=
  let n := c.toNat
  if n < 0x80 then [n]
  else if n < 0x800 then [0xc0 ||| (n >>> 6), 0x80 ||| (n &&& 0x3f)]
  else if n < 0x10000 then
    [0xe0 ||| (n >>> 12), 0x80 ||| ((n >>> 6) &&& 0x3f), 0x80 ||| (n &&& 0x3f)]
  else
    [0xf0 ||| (n >>> 18), 0x80 ||| ((n >>> 12) &&& 0x3f),
     0x80 ||| ((n >>> 6) &&& 0x3f), 0x80 ||| (n &&& 0x3f)]

/-- UTF-8 encoding of a string (Node's default string-to-bytes conversion). -/
def utf8Encode (s : String) : List Nat := s.data.flatMap utf8EncodeChar

/-- Lowercase hexadecimal digit for a value below 16. -/
def hexDigit (n : Nat) : Char :=
  if n < 10 then Char.ofNat (48 + n) else Char.ofNat (87 + n)

/-- Lowercase hex encoding of a byte list (Node's `digest('hex')`). -/
def bytesToHex (bs : List Nat) : String :=
  String.mk (bs.flatMap (fun b => [hexDigit (b / 16), hexDigit (b % 16)]))

/-- The base64 alphabet as a character list. -/
def b64Chars : List Char :=
  "ABCDEFGHIJKLMNOPQRSTUVWXYZabcdefghijklmnopqrstuvwxyz0123456789+/".data

/-- The base64 character for a 6-bit value. -/
def b64Char (n : Nat) : Char := b64Chars.getD n 'A'

/-- Base64 body: encode 3-byte groups, padding short tails with `=`. -/
def b64Aux : List Nat → List Char
  | a :: b :: c :: rest =>
    let n := a * 65536 + b * 256 + c
    b64Char (n >>> 18) :: b64Char ((n >>> 12) &&& 63) ::
      b64Char ((n >>> 6) &&& 63) :: b64Char (n &&& 63) :: b64Aux rest
  | [a, b] =>
    let n := a * 65536 + b * 256
    [b64Char (n >>> 18), b64Char ((n >>> 12) &&& 63), b64Char ((n >>> 6) &&& 63), '=']
  | [a] =>
    let n := a * 65536
    [b64Char (n >>> 18), b64Char ((n >>> 12) &&& 63), '=', '=']
  | [] => []

/-- Base64 encoding of a byte list (Node's `Buffer.toString('base64')`). -/
def base64Encode (bs : List Nat) : String := String.mk (b64Aux bs)

/-! ### Request signing (`generateLMv1AuthHeader`, extension.ts lines 113-121) -/

/-- Translation of `generateLMv1AuthHeader`: HMAC-SHA256 of
`httpVerb + epoch + data + resourcePath` keyed by `apiKey`, hex-digested,
the hex string then base64-encoded, and interpolated into
`LMv1 <id>:<signature>:<epoch>`. -/
def generateLMv1AuthHeader (apiId apiKey httpVerb resourcePath epoch data : String) :
    String :=
  let signature := base64Encode (utf8Encode (bytesToHex
    (hmacSha256 (utf8Encode apiKey)
      (utf8Encode (httpVerb ++ epoch ++ data ++ resourcePath)))))
  "LMv1 " ++ apiId ++ ":" ++ signature ++ ":" ++ epoch

/-- The header format stated by the specification: scheme `LMv1`, then
`<id>:<sig>:<epoch>` where `<sig>` is the base64 encoding of the lowercase-hex
encoding (not of the raw digest bytes) of
HMAC-SHA256(key, verb + epoch + body + path). -/
def lmv1HeaderSpec (apiId apiKey httpVerb resourcePath epoch body : String) : String :=
  let hexDigest := bytesToHex
    (hmacSha256 (utf8Encode apiKey)
      (utf8Encode (httpVerb ++ epoch ++ body ++ resourcePath)))
  "LMv1 " ++ apiId ++ ":" ++ base64Encode (utf8Encode hexDigest) ++ ":" ++ epoch

/-! ### Poll response classification (`pollDebugSession`, extension.ts lines 696-769)

A poll response is the parsed JSON of one `GET /debug/<sessionId>` call.  The
code only reads its `status` and `output` fields with `===`/string methods, so
a field is modelled as `Option String`: `none` stands for an absent or
non-string value (on which `=== 'completed'`, `typeof === 'string'` are
false).  A `none` response models a falsy response body. -/

/-- The two fields of a poll response that `pollDebugSession` inspects. -/
structure PollResponse where
  status : Option String
  output : Option String
deriving Repr, DecidableEq

/-- JavaScript character class `\s` as matched by the regex
`/^returns\s+(-?\d+|null)/` (no `u` flag). -/
def isJsSpace (c : Char) : Bool :=
  c = ' ' || c = '\t' || c = '\n' || c = '\r' ||
  c.toNat = 0x0b || c.toNat = 0x0c || c.toNat = 0xa0 || c.toNat = 0x1680 ||
  (0x2000 ≤ c.toNat && c.toNat ≤ 0x200a) ||
  c.toNat = 0x2028 || c.toNat = 0x2029 || c.toNat = 0x202f ||
  c.toNat = 0x205f || c.toNat = 0x3000 || c.toNat = 0xfeff

/-- The capture of `/^returns\s+(-?\d+|null)/` on a line, or `none` when the
regex does not match.  Greedy `\s+` and `\d+` need no backtracking here
because no whitespace character can begin the alternation `(-?\d+|null)`. -/
def matchReturnsValue (line : List Char) : Option String :=
  if startsList line "returns".data then
    let rest := line.drop 7
    let ws := rest.takeWhile isJsSpace
    if ws.isEmpty then none
    else
      let tail := rest.dropWhile isJsSpace
      let (neg, afterSign) :=
        match tail with
        | '-' :: t => (true, t)
        | t => (false, t)
      let digits := afterSign.takeWhile Char.isDigit
      if !digits.isEmpty then
        some (String.mk (if neg then '-' :: digits else digits))
      else if startsList tail "null".data then some "null"
      else none
  else none

/-- Substitution performed by `replace(/\n/g, '\r')`. -/
def nlToCr (c : Char) : Char := if c = '\n' then '\r' else c

/-- Classification of one poll response, in the order of the `if`/`else if`
chain at extension.ts lines 728-754. -/
inductive PollClass where
  /-- `status === 'completed'`: terminal success. -/
  | completed
  /-- `status === 'cancelled'`: terminal failure. -/
  | cancelledStatus
  /-- string `output` containing `'cancelled'`: terminal failure. -/
  | cancelledOutput
  /-- string `output` starting with `'returns'`: terminal success carrying the
  parsed return value and the translated remaining console output. -/
  | returned (returnValue : Option String) (console : String)
  /-- any other response: polling continues. -/
  | inconclusive
deriving Repr, DecidableEq

/-- Translation of the response classification in `pollDebugSession`
(extension.ts lines 728-754).  The `!out.isEmpty` conjuncts reproduce the
JavaScript truthiness test `response.output && ...` (an empty string is
falsy). -/
def classifyResponse (r : Option PollResponse) : PollClass :=
  match r with
  | none => .inconclusive
  | some resp =>
    if resp.status = some "completed" then .completed
    else if resp.status = some "cancelled" then .cancelledStatus
    else
      match resp.output with
      | none => .inconclusive
      | some out =>
        if !out.isEmpty && includesList out.data "cancelled".data then
          .cancelledOutput
        else if !out.isEmpty && startsList out.data "returns".data then
          let lines := splitCharList '\n' out.data
          let firstLine := lines.headD []
          let remaining := joinCharLists ['\n'] (lines.drop 1)
          .returned (matchReturnsValue firstLine)
            (String.mk (remaining.map nlToCr))
        else .inconclusive

/-- The classification as the specification phrases it: the same five cases in
the same priority order, with the console output of a `returns` response
described as the remaining lines joined by carriage returns. -/
def classifySpec (r : Option PollResponse) : PollClass :=
  match r with
  | none => .inconclusive
  | some resp =>
    if resp.status = some "completed" then .completed
    else if resp.status = some "cancelled" then .cancelledStatus
    else
      match resp.output with
      | none => .inconclusive
      | some out =>
        if includesList out.data "cancelled".data then .cancelledOutput
        else if startsList out.data "returns".data then
          let lines := splitCharList '\n' out.data
          .returned (matchReturnsValue (lines.headD []))
            (String.mk (joinCharLists ['\r'] (lines.drop 1)))
        else .inconclusive

/-! ### The poll loop (`pollDebugSession`, extension.ts lines 696-769)

One poll attempt either yields a parsed response or throws (a network or
HTTP failure caught at line 755).  The attempt sequence of a run is
abstracted as a function from the attempt index. -/

/-- The outcome of issuing one poll request. -/
inductive PollAttempt where
  /-- `makeApiRequest` threw; the `catch` block swallows it. -/
  | threw
  /-- `makeApiRequest` returned a (possibly falsy) response body. -/
  | ok (response : Option PollResponse)
deriving Repr, DecidableEq

/-- The state in which one invocation of `pollDebugSession` ends. -/
inductive SessionEnd where
  | completed
  | cancelledByCollector
  | cancelledViaOutput
  | completedWithOutput (returnValue : Option String) (console : String)
  | timedOut
deriving Repr, DecidableEq

/-- The terminal session state produced by a classification, or `none` when
polling continues. -/
def classToEnd : PollClass → Option SessionEnd
  | .completed => some .completed
  | .cancelledStatus => some .cancelledByCollector
  | .cancelledOutput => some .cancelledViaOutput
  | .returned rv console => some (.completedWithOutput rv console)
  | .inconclusive => none

/-- The terminal session state produced by one poll attempt: a thrown attempt
never terminates, a returned response terminates according to its
classification. -/
def attemptResult (a : PollAttempt) : Option SessionEnd :=
  match a with
  | .threw => none
  | .ok r => classToEnd (classifyResponse r)

/-- `maxAttempts` at extension.ts line 704. -/
def maxAttempts : Nat := 40

/-- The warning text at extension.ts line 767. -/
def timeoutWarning : String := "Debug session timed out after 2 minutes."

/-- Observable outcome of one `pollDebugSession` run: the final state, the
number of poll requests issued, and the `showWarningMessage` calls made. -/
structure PollRun where
  result : SessionEnd
  attempts : Nat
  warnings : List String
deriving Repr, DecidableEq

/-- The `for` loop of `pollDebugSession`: `n` is the number of attempts left
and `i` the index of the next attempt.  When the budget is exhausted the run
times out, warning only when `debugEnabled` (extension.ts lines 766-768). -/
def pollAux (debugEnabled : Bool) (respAt : Nat → PollAttempt) :
    Nat → Nat → PollRun
  | 0, i => ⟨.timedOut, i, if debugEnabled then [timeoutWarning] else []⟩
  | n + 1, i =>
    match attemptResult (respAt i) with
    | some e => ⟨e, i + 1, []⟩
    | none => pollAux debugEnabled respAt n (i + 1)

/-- Translation of `pollDebugSession` (extension.ts lines 696-769) over an
abstract attempt sequence: up to `maxAttempts` polls, stopping at the first
terminal classification. -/
def pollDebugSession (debugEnabled : Bool) (respAt : Nat → PollAttempt) : PollRun :=
  pollAux debugEnabled respAt maxAttempts 0

/-! ### Paginated resource fetch (extension.ts lines 202-470)

All eight list fetchers (`getCollectorGroups`, `getCollectors`,
`getDevices`, `getRemoteDataSources`, ...) repeat the same
`while (hasMore)` loop with page size 1000; only the endpoint, the field
list, and an optional final sort differ.  The loop body is embedded once,
over an abstract page source mapping an offset to the outcome of the
request issued at that offset. -/

/-- The outcome of one page request. -/
inductive PageAttempt (α : Type) where
  /-- `makeApiRequest` threw; the surrounding `catch` returns `[]`. -/
  | threw
  /-- A response; `none` models a falsy response or a missing/falsy `items`
  field (`if (response && response.items)` fails). -/
  | ok (items : Option (List α))
deriving Repr, DecidableEq

/-- The `while (hasMore)` pagination loop with its surrounding
`try`/`catch`.  Arguments track the fuel, the next offset, the accumulated
items, and the offsets requested so far; the result pairs the returned list
with the requested offsets.  `none` means the fuel ran out, a case the
theorems never rely on (the loop in the source has no cap). -/
def fetchAux (pageAt : Nat → PageAttempt α) (size : Nat) :
    Nat → Nat → List α → List Nat → Option (List α × List Nat)
  | 0, _, _, _ => none
  | fuel + 1, offset, acc, reqs =>
    match pageAt offset with
    | .threw => some ([], reqs ++ [offset])
    | .ok none => some (acc, reqs ++ [offset])
    | .ok (some items) =>
      if items.length < size then some (acc ++ items, reqs ++ [offset])
      else fetchAux pageAt size fuel (offset + size) (acc ++ items) (reqs ++ [offset])

/-- A collector group as fetched (`fields: 'id,name'`). -/
structure CollectorGroup where
  id : Int
  name : String
deriving Repr, DecidableEq

/-- A device as fetched (`fields: 'id,name,displayName'`). -/
structure Device where
  id : Int
  name : String
  displayName : String
deriving Repr, DecidableEq

/-- Translation of `getCollectorGroups` (extension.ts lines 202-227) over an
abstract page source: the pagination loop with page size 1000 starting at
offset 0. -/
def getCollectorGroups (pageAt : Nat → PageAttempt CollectorGroup) (fuel : Nat) :
    Option (List CollectorGroup × List Nat) :=
  fetchAux pageAt 1000 fuel 0 [] []

/-- Translation of `getDevices` (extension.ts lines 256-281): the same loop
followed by `sort((a, b) => a.displayName.localeCompare(b.displayName))`.
`localeCompare` depends on the runtime locale, so the comparator is a
parameter; the sort is modelled as a merge sort with that comparator (on the
thrown path the source returns `[]` before sorting, and sorting `[]` is
`[]`). -/
def getDevices (cmp : Device → Device → Bool)
    (pageAt : Nat → PageAttempt Device) (fuel : Nat) :
    Option (List Device × List Nat) :=
  (fetchAux pageAt 1000 fuel 0 [] []).map (fun r => (r.1.mergeSort cmp, r.2))

/-! ### `makeApiRequest` body and signature (extension.ts lines 123-200)

Only the signing-relevant projection is embedded: how the `data` argument
becomes the signed string and the transmitted body.  The timestamp
(`Date.now()`) is an input. -/

/-- A JSON value, as passed for the `data` argument of `makeApiRequest`. -/
inductive Json where
  | null
  | bool (b : Bool)
  | num (n : Int)
  | str (s : String)
  | arr (items : List Json)
  | obj (fields : List (String × Json))
deriving Repr

/-- JavaScript truthiness of a JSON value (`data ? ... : ''`). -/
def Json.truthy : Json → Bool
  | .null => false
  | .bool b => b
  | .num n => n != 0
  | .str s => !s.isEmpty
  | .arr _ => true
  | .obj _ => true

/-- Escape one character for a JSON string literal. -/
def jsonEscapeChar (c : Char) : List Char :=
  if c = '"' then ['\\', '"']
  else if c = '\\' then ['\\', '\\']
  else if c = '\n' then ['\\', 'n']
  else if c = '\r' then ['\\', 'r']
  else if c = '\t' then ['\\', 't']
  else if c = '\x08' then ['\\', 'b']
  else if c = '\x0c' then ['\\', 'f']
  else if c.toNat < 0x20 then
    ['\\', 'u', '0', '0', hexDigit (c.toNat / 16), hexDigit (c.toNat % 16)]
  else [c]

/-- Serialize a JSON string literal. -/
def jsonStr (s : String) : String :=
  String.mk ('"' :: s.data.flatMap jsonEscapeChar ++ ['"'])

mutual

/-- Compact serialization of a JSON value, modelling `JSON.stringify(data)`
with no indent argument. -/
def Json.stringify : Json → String
  | .null => "null"
  | .bool true => "true"
  | .bool false => "false"
  | .num n => toString n
  | .str s => jsonStr s
  | .arr items => "[" ++ Json.stringifyList items ++ "]"
  | .obj fields => "\x7b" ++ Json.stringifyFields fields ++ "\x7d"

/-- Comma-separated serialization of array elements. -/
def Json.stringifyList : List Json → String
  | [] => ""
  | [x] => Json.stringify x
  | x :: y :: xs => Json.stringify x ++ "," ++ Json.stringifyList (y :: xs)

/-- Comma-separated serialization of object fields. -/
def Json.stringifyFields : List (String × Json) → String
  | [] => ""
  | [(k, v)] => jsonStr k ++ ":" ++ Json.stringify v
  | (k, v) :: f :: fs =>
    jsonStr k ++ ":" ++ Json.stringify v ++ "," ++ Json.stringifyFields (f :: fs)

end

/-- One credential entry (`creds.json` value). -/
structure Portal where
  API_ACCESS_ID : String
  API_ACCESS_KEY : String
  COMPANY_NAME : String
deriving Repr, DecidableEq

/-- The parts of the request built by `makeApiRequest` that the signing
contract constrains. -/
structure BuiltRequest where
  /-- `requestData`, the string handed to `generateLMv1AuthHeader`. -/
  requestData : String
  /-- The `Authorization` header value. -/
  authHeader : String
  /-- `options.body`: attached only when `data` is truthy. -/
  body : Option String
deriving Repr

/-- Translation of the body/signature construction of `makeApiRequest`
(extension.ts lines 123-175): `requestData = data ? JSON.stringify(data) : ''`,
the auth header is computed over `requestData`, and the body is attached
only `if (data)`. -/
def makeApiRequestBuild (portalDetails : Portal) (httpVerb resourcePath : String)
    (data : Option Json) (epoch : String) : BuiltRequest :=
  let requestData :=
    match data with
    | some d => if d.truthy then d.stringify else ""
    | none => ""
  let authHeader := generateLMv1AuthHeader portalDetails.API_ACCESS_ID
    portalDetails.API_ACCESS_KEY httpVerb resourcePath epoch requestData
  let body :=
    match data with
    | some d => if d.truthy then some d.stringify else none
    | none => none
  ⟨requestData, authHeader, body⟩

/-! ### Module pull (`pullDataSource`, extension.ts lines 1294-1424)

The network, directory creation, and message boxes aside, the observable
effect of a DataSource pull is the sequence of files it writes.  The
definition shape mirrors exactly the fields the handler reads. -/

/-- `autoDiscoveryConfig.method` of a DataSource definition.  The handler
reads only `groovyScript`; `type` is the script-engine declaration the
sibling ConfigSource handler consults. -/
structure ADMethod where
  groovyScript : Option String
  type : Option String
deriving Repr, DecidableEq

/-- `autoDiscoveryConfig` of a DataSource definition. -/
structure AutoDiscoveryConfig where
  method : Option ADMethod
deriving Repr, DecidableEq

/-- `collectorAttribute` of a DataSource definition.  The handler reads only
`groovyScript`; `scriptType` is the declared script engine. -/
structure CollectorAttribute where
  groovyScript : Option String
  scriptType : Option String
deriving Repr, DecidableEq

/-- The fields of a pulled DataSource definition that `pullDataSource`
inspects. -/
structure DataSourceDefinition where
  autoDiscoveryConfig : Option AutoDiscoveryConfig
  collectorAttribute : Option CollectorAttribute
deriving Repr, DecidableEq

/-- The manifest written alongside a pulled module (extension.ts
lines 1369-1376). -/
structure Manifest where
  name : String
  displayName : String
  id : String
  portal : String
  moduleType : String
  pullDate : String
deriving Repr, DecidableEq

/-- The content of one file written by a pull. -/
inductive WriteContent where
  /-- `<name>.json`: the raw definition body. -/
  | moduleJson (d : DataSourceDefinition)
  /-- `manifest.json`. -/
  | manifestJson (m : Manifest)
  /-- An extracted script body. -/
  | scriptFile (body : String)
deriving Repr, DecidableEq

/-- Translation of the file writes of `pullDataSource` (extension.ts
lines 1352-1417), in program order: the module JSON, the manifest, then the
discovery and collection scripts when their fields are truthy.  The handler
initializes `scriptExtension` to `".groovy"` and never reassigns it to
anything else, so both script files always get the `.groovy` extension. -/
def pullDataSourceWrites (dataSourceName dataSourceId activePortalName
    displayName pullDate : String) (dataSourceDefinition : DataSourceDefinition) :
    List (String × WriteContent) :=
  [(dataSourceName ++ ".json", .moduleJson dataSourceDefinition),
   ("manifest.json", .manifestJson
     ⟨dataSourceName, displayName, dataSourceId, activePortalName,
      "DataSource", pullDate⟩)] ++
  (match dataSourceDefinition.autoDiscoveryConfig with
   | some adc =>
     match adc.method with
     | some m =>
       match m.groovyScript with
       | some script =>
         if script.isEmpty then [] else [("discovery.groovy", .scriptFile script)]
       | none => []
     | none => []
   | none => []) ++
  (match dataSourceDefinition.collectorAttribute with
   | some ca =>
     match ca.groovyScript with
     | some script =>
       if script.isEmpty then [] else [("collection.groovy", .scriptFile script)]
     | none => []
   | none => [])

/-! ### Workspace state and `setActivePortal` (extension.ts lines 1161-1171)

`context.workspaceState` is a string-keyed store; `update(key, undefined)`
removes the key.  Values are modelled by a small sum covering what the
extension stores. -/

/-- A value held in workspace state. -/
inductive WVal where
  | vStr (s : String)
  | vNum (n : Int)
  | vBool (b : Bool)
  /-- Any structured value (cached lists, portal details, ...), abstracted. -/
  | vOpaque (tag : Nat)
deriving Repr, DecidableEq

/-- The workspace-state store. -/
def WState : Type := String → Option WVal

/-- `workspaceState.update key v`; `v = none` models `update(key, undefined)`
which removes the key. -/
def wsUpdate (st : WState) (key : String) (v : Option WVal) : WState :=
  fun k => if k = key then v else st k

/-- Translation of the `logicmonitor.setActivePortal` command handler
(extension.ts lines 1161-1171): set the active portal, then clear the
active collector and device fields, in program order. -/
def setActivePortal (portalName : String) (st : WState) : WState :=
  wsUpdate (wsUpdate (wsUpdate (wsUpdate (wsUpdate (wsUpdate st
    "logicmonitor.activePortal" (some (.vStr portalName)))
    "logicmonitor.activeCollectorId" none)
    "logicmonitor.activeCollectorDescription" none)
    "logicmonitor.activeDeviceId" none)
    "logicmonitor.activeDeviceDisplayName" none)
    "logicmonitor.activeDeviceHostname" none

/-- The six keys written by `setActivePortal`. -/
def setActivePortalKeys : List String :=
  ["logicmonitor.activePortal", "logicmonitor.activeCollectorId",
   "logicmonitor.activeCollectorDescription", "logicmonitor.activeDeviceId",
   "logicmonitor.activeDeviceDisplayName", "logicmonitor.activeDeviceHostname"]

/-! ### Example inputs used by witnesses and counterexamples -/

/-- A DataSource definition declaring the PowerShell engine for both its
scripts. -/
def powerShellDsDef : DataSourceDefinition :=
  { autoDiscoveryConfig := some
      { method := some
          { groovyScript := some "Get-Discovery", type := some "powerShell" } },
    collectorAttribute := some
      { groovyScript := some "Get-Date", scriptType := some "powerShell" } }

/-- A DataSource definition with no declared script engine. -/
def groovyDsDef : DataSourceDefinition :=
  { autoDiscoveryConfig := some
      { method := some { groovyScript := some "discover()", type := none } },
    collectorAttribute := some
      { groovyScript := some "collect()", scriptType := none } }

/-- Three collector groups: a first page already shorter than the page
size. -/
def threeGroups : List CollectorGroup :=
  [⟨1, "alpha"⟩, ⟨2, "beta"⟩, ⟨3, "gamma"⟩]

/-- A page that exactly fills the page size of 1000. -/
def fullGroupPage : List CollectorGroup := List.replicate 1000 ⟨7, "grp"⟩

/-- A page source returning one full page at offset 0 and throwing on the
follow-up request. -/
def throwAfterOnePage : Nat → PageAttempt CollectorGroup :=
  fun offset => if offset = 0 then .ok (some fullGroupPage) else .threw

/-! ## Shared lemmas -/

/-- No piece produced by `splitCharAux` contains the separator, provided the
carried piece does not. -/
theorem splitCharAux_not_mem (c : Char) :
    ∀ (l cur : List Char), c ∉ cur →
      ∀ p ∈ splitCharAux c l cur, c ∉ p := by
  intro l
  induction l with
  | nil =>
    intro cur hcur p hp
    simp only [splitCharAux, List.mem_singleton] at hp
    subst hp
    simpa using hcur
  | cons x xs ih =>
    intro cur hcur p hp
    simp only [splitCharAux] at hp
    by_cases hx : x = c
    · rw [if_pos hx] at hp
      rcases List.mem_cons.mp hp with hp | hp
      · subst hp; simpa using hcur
      · exact ih [] (by simp) p hp
    · rw [if_neg hx] at hp
      refine ih (x :: cur) ?_ p hp
      intro hmem
      rcases List.mem_cons.mp hmem with hmem | hmem
      · exact hx hmem.symm
      · exact hcur hmem

/-- No piece produced by `splitCharList` contains the separator. -/
theorem splitCharList_not_mem (c : Char) (l : List Char) :
    ∀ p ∈ splitCharList c l, c ∉ p :=
  splitCharAux_not_mem c l [] (by simp)

/-- Mapping a function that only rewrites the separator over pieces free of
it leaves the pieces unchanged and rewrites exactly the joins. -/
theorem map_nlToCr_joinCharLists :
    ∀ (parts : List (List Char)), (∀ p ∈ parts, '\n' ∉ p) →
      (joinCharLists ['\n'] parts).map nlToCr = joinCharLists ['\r'] parts := by
  intro parts
  induction parts with
  | nil => intro _; simp [joinCharLists]
  | cons x xs ih =>
    intro h
    have hx : x.map nlToCr = x := by
      conv_rhs => rw [← List.map_id x]
      refine List.map_congr_left ?_
      intro a ha
      have hne : a ≠ '\n' := fun hEq => h x (by simp) (hEq ▸ ha)
      simp [nlToCr, hne]
    cases xs with
    | nil => simpa [joinCharLists] using hx
    | cons y ys =>
      have hrest := ih (fun p hp => h p (List.mem_cons_of_mem x hp))
      simp only [joinCharLists, List.map_append, hx, hrest]
      simp [nlToCr]

/-- Every piece surviving `List.drop` on the split of `out` is free of
newlines. -/
theorem splitCharList_drop_not_mem (c : Char) (l : List Char) (n : Nat) :
    ∀ p ∈ (splitCharList c l).drop n, c ∉ p :=
  fun p hp => splitCharList_not_mem c l p (List.drop_subset n _ hp)

/-- Claim C2: each `pollDebugSession` poll response is classified in priority
order — completed status, cancelled status, output containing `cancelled`,
output starting with `returns` (with the leading integer or `null` of the
first line as return value and the remaining lines, newlines translated to
carriage returns, as console output) — and anything else continues polling:
`classifyResponse`, read off the code, coincides with `classifySpec`, read
off the specification. -/
theorem claim_C2_poll_classification (r : Option PollResponse) :
    classifyResponse r = classifySpec r := by
  cases r with
  | none => rfl
  | some resp =>
    simp only [classifyResponse, classifySpec]
    by_cases h1 : resp.status = some "completed"
    · simp [h1]
    · simp only [if_neg h1]
      by_cases h2 : resp.status = some "cancelled"
      · simp [h2]
      · simp only [if_neg h2]
        cases hout : resp.output with
        | none => rfl
        | some out =>
          cases he : out.isEmpty with
          | true =>
            have heq : out = "" := by
              cases out with
              | mk data =>
                cases data with
                | nil => rfl
                | cons a as =>
                  exfalso
                  have hpos := Char.utf8Size_pos a
                  simp [String.isEmpty, String.endPos, String.utf8ByteSize,
                    String.Pos.ext_iff] at he
                  omega
            subst heq
            rfl
          | false =>
            simp only [he, Bool.not_false, Bool.true_and]
            cases hc : includesList out.data "cancelled".data with
            | true => simp [hc]
            | false =>
              simp only [hc, Bool.false_eq_true, if_false]
              cases hr : startsList out.data "returns".data with
              | true =>
                simp only [hr, if_true]
                have hconsole :
                    (joinCharLists ['\n']
                        ((splitCharList '\n' out.data).drop 1)).map nlToCr =
                      joinCharLists ['\r'] ((splitCharList '\n' out.data).drop 1) :=
                  map_nlToCr_joinCharLists _ (splitCharList_drop_not_mem '\n' out.data 1)
                rw [hconsole]
              | false => simp [hr]

/-- Full characterization of the poll loop: starting `n` attempts before the
budget runs out at index `i`, the run either times out after consuming the
whole budget (when no attempt in the window terminates), or stops right
after the first terminating attempt. -/
theorem pollAux_cases (dbg : Bool) (respAt : Nat → PollAttempt) :
    ∀ n i,
      (pollAux dbg respAt n i =
          ⟨.timedOut, i + n, if dbg then [timeoutWarning] else []⟩ ∧
        ∀ j, j < n → attemptResult (respAt (i + j)) = none) ∨
      (∃ j e, j < n ∧ attemptResult (respAt (i + j)) = some e ∧
        (∀ j', j' < j → attemptResult (respAt (i + j')) = none) ∧
        pollAux dbg respAt n i = ⟨e, i + j + 1, []⟩) := by
  intro n
  induction n with
  | zero =>
    intro i
    left
    exact ⟨by simp [pollAux], fun j hj => absurd hj (Nat.not_lt_zero j)⟩
  | succ n ih =>
    intro i
    cases hfirst : attemptResult (respAt i) with
    | some e =>
      right
      exact ⟨0, e, Nat.succ_pos n, by simpa using hfirst,
        fun j' hj' => absurd hj' (Nat.not_lt_zero j'),
        by simp [pollAux, hfirst]⟩
    | none =>
      have hstep : pollAux dbg respAt (n + 1) i = pollAux dbg respAt n (i + 1) := by
        simp [pollAux, hfirst]
      rcases ih (i + 1) with ⟨heq, hall⟩ | ⟨j, e, hj, hterm, hbefore, heq⟩
      · left
        refine ⟨by rw [hstep, heq]; congr 1; omega, ?_⟩
        intro j hj
        cases j with
        | zero => simpa using hfirst
        | succ j' =>
          have h2 := hall j' (by omega)
          have harith : i + (j' + 1) = i + 1 + j' := by omega
          rw [harith]
          exact h2
      · right
        refine ⟨j + 1, e, by omega, ?_, ?_, ?_⟩
        · have harith : i + (j + 1) = i + 1 + j := by omega
          rw [harith]
          exact hterm
        · intro j' hj'
          cases j' with
          | zero => simpa using hfirst
          | succ j'' =>
            have h2 := hbefore j'' (by omega)
            have harith : i + (j'' + 1) = i + 1 + j'' := by omega
            rw [harith]
            exact h2
        · rw [hstep, heq]; congr 2; omega

/-- Claim C3 counterexample: a source that always returns an inconclusive
response, polled with debug logging off (its default), ends timed out after
all 40 attempts but emits no warning — the timeout warning at
extension.ts lines 766-768 is guarded by `debugEnabled`, so the claim's
unconditional "user-visible warning" fails. -/
theorem claim_C3_counterexample :
    (pollDebugSession false (fun _ => .ok none)).result = .timedOut ∧
    (pollDebugSession false (fun _ => .ok none)).attempts = maxAttempts ∧
    (pollDebugSession false (fun _ => .ok none)).warnings = [] := by
  decide

/-- Claim C3 (amended): against a source whose first 40 attempts never
produce a terminal classification, `pollDebugSession` performs exactly
`maxAttempts = 40` polls and ends timed out without an exception; the
timeout warning is shown exactly when debug logging is enabled. -/
theorem claim_C3_poll_timeout (dbg : Bool) (respAt : Nat → PollAttempt)
    (h : ∀ i, i < maxAttempts → attemptResult (respAt i) = none) :
    pollDebugSession dbg respAt =
      ⟨.timedOut, maxAttempts, if dbg then [timeoutWarning] else []⟩ := by
  rcases pollAux_cases dbg respAt maxAttempts 0 with ⟨heq, _⟩ | ⟨j, e, hj, hterm, _, _⟩
  · simpa [pollDebugSession] using heq
  · exact absurd hterm (by simp [h j hj])

/-- Witness for claim C3: a concrete inconclusive source with debug logging
on runs all 40 attempts, times out, and shows the warning. -/
theorem claim_C3_poll_timeout_witness :
    pollDebugSession true (fun _ => .ok none) =
      ⟨.timedOut, maxAttempts, [timeoutWarning]⟩ :=
  claim_C3_poll_timeout true (fun _ => .ok none) (fun _ _ => rfl)

/-- Claim C7: a thrown poll is swallowed — the loop never stops right after a
throwing attempt except by exhausting the budget in the timed-out state —
and a run ends only by reaching the attempt cap or on an attempt whose
response classifies as terminal. -/
theorem claim_C7_poll_errors_swallowed :
    (∀ (dbg : Bool) (respAt : Nat → PollAttempt) (k : Nat),
      respAt k = .threw →
      (pollDebugSession dbg respAt).attempts = k + 1 →
      (pollDebugSession dbg respAt).result = .timedOut) ∧
    (∀ (dbg : Bool) (respAt : Nat → PollAttempt),
      (pollDebugSession dbg respAt).attempts = maxAttempts ∧
        (pollDebugSession dbg respAt).result = .timedOut ∨
      attemptResult (respAt ((pollDebugSession dbg respAt).attempts - 1)) ≠ none) := by
  constructor
  · intro dbg respAt k hthrew hstop
    rcases pollAux_cases dbg respAt maxAttempts 0 with ⟨heq, _⟩ | ⟨j, e, hj, hterm, _, heq⟩
    · rw [pollDebugSession, heq]
    · exfalso
      have hterm' : attemptResult (respAt j) = some e := by simpa using hterm
      rw [pollDebugSession, heq] at hstop
      simp only at hstop
      have hjk : j = k := by omega
      subst hjk
      rw [hthrew] at hterm'
      simp [attemptResult] at hterm'
  · intro dbg respAt
    rcases pollAux_cases dbg respAt maxAttempts 0 with ⟨heq, _⟩ | ⟨j, e, hj, hterm, _, heq⟩
    · left
      rw [pollDebugSession, heq]
      exact ⟨by simp, rfl⟩
    · right
      have hterm' : attemptResult (respAt j) = some e := by simpa using hterm
      rw [pollDebugSession, heq]
      have harith : 0 + j + 1 - 1 = j := by omega
      simp only [harith]
      simp [hterm']

/-- Witness for claim C7: a source that throws on every poll runs the full
budget; in particular the loop is still running right after the 39 thrown
attempts before it, and the final state is timed-out, not an error. -/
theorem claim_C7_poll_errors_swallowed_witness :
    (pollDebugSession false (fun _ => PollAttempt.threw)).result = .timedOut :=
  claim_C7_poll_errors_swallowed.1 false (fun _ => PollAttempt.threw) 39 rfl rfl

/-- Splitting off the head of the offset sequence generated by a page run. -/
theorem range_map_offsets (offset size n : Nat) :
    (List.range (n + 1)).map (fun k => offset + k * size) =
      offset :: (List.range n).map (fun k => offset + size + k * size) := by
  rw [List.range_succ_eq_map]
  simp only [List.map_cons, List.map_map, Nat.zero_mul, Nat.add_zero]
  congr 1
  refine List.map_congr_left ?_
  intro a _
  simp only [Function.comp_apply, Nat.succ_mul]
  omega

/-- Running the pagination loop through a prefix of pages that each fill the
page size advances the offset, the accumulator, and the request log, page by
page. -/
theorem fetchAux_full_pages {α : Type} (pageAt : Nat → PageAttempt α) (size : Nat) :
    ∀ (ps : List (List α)) (offset : Nat) (acc : List α) (reqs : List Nat) (fuel : Nat),
      (∀ k, k < ps.length →
        pageAt (offset + k * size) = .ok (some (ps.getD k [])) ∧
          (ps.getD k []).length = size) →
      fetchAux pageAt size (ps.length + fuel) offset acc reqs =
        fetchAux pageAt size fuel (offset + ps.length * size) (acc ++ ps.flatten)
          (reqs ++ (List.range ps.length).map (fun k => offset + k * size)) := by
  intro ps
  induction ps with
  | nil => intro offset acc reqs fuel _; simp
  | cons p ps ih =>
    intro offset acc reqs fuel h
    have h0 := h 0 (by simp)
    rw [List.getD_cons_zero, Nat.zero_mul, Nat.add_zero] at h0
    have hstep :
        fetchAux pageAt size (ps.length + 1 + fuel) offset acc reqs =
          fetchAux pageAt size (ps.length + fuel) (offset + size) (acc ++ p)
            (reqs ++ [offset]) := by
      rw [show ps.length + 1 + fuel = (ps.length + fuel) + 1 from by omega]
      simp only [fetchAux]
      rw [h0.1]
      simp [h0.2]
    have hrest := ih (offset + size) (acc ++ p) (reqs ++ [offset]) fuel
      (fun k hk => by
        have hk1 := h (k + 1) (by simpa using Nat.succ_lt_succ hk)
        rw [List.getD_cons_succ] at hk1
        rw [show offset + size + k * size = offset + (k + 1) * size from by
          rw [Nat.succ_mul]; omega]
        exact hk1)
    rw [show (p :: ps).length + fuel = ps.length + 1 + fuel from by
      rw [List.length_cons]]
    rw [hstep, hrest]
    congr 1
    · rw [List.length_cons, Nat.succ_mul]; omega
    · rw [List.flatten_cons, List.append_assoc]
    · rw [List.length_cons, range_map_offsets, List.append_assoc]
      rfl

/-- The loop stops on a page shorter than the page size, returning the
accumulated items plus that page. -/
theorem fetchAux_stop_short {α : Type} (pageAt : Nat → PageAttempt α)
    (size offset : Nat) (acc : List α) (reqs : List Nat) (fuel : Nat)
    (items : List α) (h : pageAt offset = .ok (some items))
    (hlen : items.length < size) :
    fetchAux pageAt size (fuel + 1) offset acc reqs =
      some (acc ++ items, reqs ++ [offset]) := by
  simp [fetchAux, h, hlen]

/-- The loop stops on a response with a missing or falsy `items` field,
returning what was accumulated so far. -/
theorem fetchAux_stop_none {α : Type} (pageAt : Nat → PageAttempt α)
    (size offset : Nat) (acc : List α) (reqs : List Nat) (fuel : Nat)
    (h : pageAt offset = .ok none) :
    fetchAux pageAt size (fuel + 1) offset acc reqs = some (acc, reqs ++ [offset]) := by
  simp [fetchAux, h]

/-- A thrown page request makes the fetcher return the empty list,
discarding the accumulator. -/
theorem fetchAux_stop_threw {α : Type} (pageAt : Nat → PageAttempt α)
    (size offset : Nat) (acc : List α) (reqs : List Nat) (fuel : Nat)
    (h : pageAt offset = .threw) :
    fetchAux pageAt size (fuel + 1) offset acc reqs = some ([], reqs ++ [offset]) := by
  simp [fetchAux, h]

/-- Appending the final offset to the offset sequence of a page run. -/
theorem range_map_snoc (n size : Nat) :
    (List.range (n + 1)).map (fun k => k * size) =
      (List.range n).map (fun k => k * size) ++ [n * size] := by
  rw [List.range_succ, List.map_append]
  rfl

/-- A fetch that pages through `initPages` full pages from offset 0 and then
hits a terminal request shape reaches that request with the concatenated
prefix accumulated. -/
theorem fetchAux_advance {α : Type} (pageAt : Nat → PageAttempt α)
    (initPages : List (List α)) (m : Nat)
    (hfull : ∀ k, k < initPages.length →
      pageAt (k * 1000) = .ok (some (initPages.getD k [])) ∧
        (initPages.getD k []).length = 1000) :
    fetchAux pageAt 1000 (initPages.length + (m + 1)) 0 [] [] =
      fetchAux pageAt 1000 (m + 1) (initPages.length * 1000) initPages.flatten
        ((List.range initPages.length).map (fun k => k * 1000)) := by
  have h := fetchAux_full_pages pageAt 1000 initPages 0 [] [] (m + 1)
    (fun k hk => by simpa using hfull k hk)
  simpa using h

/-- Claim C4: when the first `N - 1` page requests each return exactly 1000
items and request `N` returns fewer, `getCollectorGroups` issues exactly the
requests at offsets `0, 1000, ..., (N-1)*1000` and returns the pages
concatenated in order; here `N = initPages.length + 1`. -/
theorem claim_C4_pagination (initPages : List (List CollectorGroup))
    (lastPage : List CollectorGroup) (pageAt : Nat → PageAttempt CollectorGroup)
    (fuel : Nat)
    (hfull : ∀ k, k < initPages.length →
      pageAt (k * 1000) = .ok (some (initPages.getD k [])) ∧
        (initPages.getD k []).length = 1000)
    (hlast : pageAt (initPages.length * 1000) = .ok (some lastPage))
    (hshort : lastPage.length < 1000)
    (hfuel : initPages.length + 1 ≤ fuel) :
    getCollectorGroups pageAt fuel =
      some (initPages.flatten ++ lastPage,
        (List.range (initPages.length + 1)).map (fun k => k * 1000)) := by
  obtain ⟨m, hm⟩ : ∃ m, fuel = initPages.length + (m + 1) :=
    ⟨fuel - initPages.length - 1, by omega⟩
  subst hm
  rw [getCollectorGroups, fetchAux_advance pageAt initPages m hfull,
    fetchAux_stop_short pageAt 1000 (initPages.length * 1000) _ _ m lastPage
      hlast hshort, range_map_snoc]

/-- Witness for claim C4: a first page of 3 items against the page size of
1000 is returned as-is after exactly one request at offset 0. -/
theorem claim_C4_pagination_witness :
    getCollectorGroups (fun _ => .ok (some threeGroups)) 1 =
      some (threeGroups, [0]) :=
  claim_C4_pagination [] threeGroups (fun _ => .ok (some threeGroups)) 1
    (fun k hk => absurd hk (Nat.not_lt_zero k)) rfl (by decide) (by decide)

/-- Claim C8: a page response with a missing or falsy `items` field ends the
pagination: the loop stops after that request and returns the items
accumulated so far, without raising. -/
theorem claim_C8_malformed_page_ends_pagination
    (initPages : List (List CollectorGroup))
    (pageAt : Nat → PageAttempt CollectorGroup) (fuel : Nat)
    (hfull : ∀ k, k < initPages.length →
      pageAt (k * 1000) = .ok (some (initPages.getD k [])) ∧
        (initPages.getD k []).length = 1000)
    (hbad : pageAt (initPages.length * 1000) = .ok none)
    (hfuel : initPages.length + 1 ≤ fuel) :
    getCollectorGroups pageAt fuel =
      some (initPages.flatten,
        (List.range (initPages.length + 1)).map (fun k => k * 1000)) := by
  obtain ⟨m, hm⟩ : ∃ m, fuel = initPages.length + (m + 1) :=
    ⟨fuel - initPages.length - 1, by omega⟩
  subst hm
  rw [getCollectorGroups, fetchAux_advance pageAt initPages m hfull,
    fetchAux_stop_none pageAt 1000 (initPages.length * 1000) _ _ m hbad,
    range_map_snoc]

/-- Witness for claim C8: an immediate malformed response yields the empty
result after one request. -/
theorem claim_C8_malformed_page_ends_pagination_witness :
    getCollectorGroups (fun _ => .ok none) 1 = some ([], [0]) :=
  claim_C8_malformed_page_ends_pagination [] (fun _ => .ok none) 1
    (fun k hk => absurd hk (Nat.not_lt_zero k)) rfl (by decide)

/-- A device-page run hitting a thrown request after full pages, stated on
the shared loop for reuse below. -/
theorem fetchAux_throw_run {α : Type} (pageAt : Nat → PageAttempt α)
    (initPages : List (List α)) (fuel : Nat)
    (hfull : ∀ k, k < initPages.length →
      pageAt (k * 1000) = .ok (some (initPages.getD k [])) ∧
        (initPages.getD k []).length = 1000)
    (hthrew : pageAt (initPages.length * 1000) = .threw)
    (hfuel : initPages.length + 1 ≤ fuel) :
    fetchAux pageAt 1000 fuel 0 [] [] =
      some ([], (List.range (initPages.length + 1)).map (fun k => k * 1000)) := by
  obtain ⟨m, hm⟩ : ∃ m, fuel = initPages.length + (m + 1) :=
    ⟨fuel - initPages.length - 1, by omega⟩
  subst hm
  rw [fetchAux_advance pageAt initPages m hfull,
    fetchAux_stop_threw pageAt 1000 (initPages.length * 1000) _ _ m hthrew,
    range_map_snoc]

/-- Claim C9: when any page request throws, the fetcher returns the empty
list, discarding every page accumulated before the failure, instead of
propagating the exception or returning a partial result; stated for
`getCollectorGroups` and for `getDevices` (whose final sort it reaches only
on the non-throwing path). -/
theorem claim_C9_page_error_discards_accumulated :
    (∀ (initPages : List (List CollectorGroup))
      (pageAt : Nat → PageAttempt CollectorGroup) (fuel : Nat),
      (∀ k, k < initPages.length →
        pageAt (k * 1000) = .ok (some (initPages.getD k [])) ∧
          (initPages.getD k []).length = 1000) →
      pageAt (initPages.length * 1000) = .threw →
      initPages.length + 1 ≤ fuel →
      getCollectorGroups pageAt fuel =
        some ([], (List.range (initPages.length + 1)).map (fun k => k * 1000))) ∧
    (∀ (cmp : Device → Device → Bool) (initPages : List (List Device))
      (pageAt : Nat → PageAttempt Device) (fuel : Nat),
      (∀ k, k < initPages.length →
        pageAt (k * 1000) = .ok (some (initPages.getD k [])) ∧
          (initPages.getD k []).length = 1000) →
      pageAt (initPages.length * 1000) = .threw →
      initPages.length + 1 ≤ fuel →
      getDevices cmp pageAt fuel =
        some ([], (List.range (initPages.length + 1)).map (fun k => k * 1000))) := by
  constructor
  · intro initPages pageAt fuel hfull hthrew hfuel
    rw [getCollectorGroups, fetchAux_throw_run pageAt initPages fuel hfull hthrew hfuel]
  · intro cmp initPages pageAt fuel hfull hthrew hfuel
    rw [getDevices, fetchAux_throw_run pageAt initPages fuel hfull hthrew hfuel]
    simp [List.mergeSort]

/-- Witness for claim C9: a source returning one full 1000-item page and
then throwing makes `getCollectorGroups` return the empty list after the
two requests at offsets 0 and 1000, discarding the full first page. -/
theorem claim_C9_page_error_discards_accumulated_witness :
    getCollectorGroups throwAfterOnePage 2 = some ([], [0, 1000]) :=
  claim_C9_page_error_discards_accumulated.1 [fullGroupPage] throwAfterOnePage 2
    (fun k hk => by
      have hk0 : k = 0 := by
        simp only [List.length_cons, List.length_nil] at hk
        omega
      subst hk0
      exact ⟨rfl, by rw [List.getD_cons_zero, fullGroupPage, List.length_replicate]⟩)
    rfl (by decide)

set_option maxRecDepth 10000 in
/-- The embedded SHA-256 reproduces the FIPS 180-4 test vector for
`"abc"`. -/
theorem sha256_fips_vector :
    bytesToHex (sha256 (utf8Encode "abc")) =
      "ba7816bf8f01cfea414140de5dae2223b00361a396177a9cb410ff61f20015ad" := by
  decide

set_option maxRecDepth 10000 in
/-- The embedded HMAC-SHA256 reproduces RFC 4231 test case 2. -/
theorem hmacSha256_rfc4231_vector :
    bytesToHex (hmacSha256 (utf8Encode "Jefe")
        (utf8Encode "what do ya want for nothing?")) =
      "5bdcc146bf60754e6a042426089575c75a003f089d2739839dec58b964ec3843" := by
  decide

/-- Claim C1: for every access id, key, verb, path, epoch string, and body
string, `generateLMv1AuthHeader` returns exactly
`LMv1 <id>:<sig>:<epoch>` where `<sig>` base64-encodes the lowercase-hex
encoding (not the raw digest bytes) of
HMAC-SHA256(key, verb + epoch + body + path), and the function is
deterministic: equal inputs give equal output. -/
theorem claim_C1_auth_header :
    (∀ apiId apiKey httpVerb resourcePath epoch data,
      generateLMv1AuthHeader apiId apiKey httpVerb resourcePath epoch data =
        lmv1HeaderSpec apiId apiKey httpVerb resourcePath epoch data) ∧
    (∀ a1 a2 k1 k2 v1 v2 p1 p2 e1 e2 d1 d2 : String,
      a1 = a2 → k1 = k2 → v1 = v2 → p1 = p2 → e1 = e2 → d1 = d2 →
      generateLMv1AuthHeader a1 k1 v1 p1 e1 d1 =
        generateLMv1AuthHeader a2 k2 v2 p2 e2 d2) := by
  constructor
  · intro apiId apiKey httpVerb resourcePath epoch data
    rfl
  · intro a1 a2 k1 k2 v1 v2 p1 p2 e1 e2 d1 d2 ha hk hv hp he hd
    subst ha; subst hk; subst hv; subst hp; subst he; subst hd
    rfl

/-- Witness for claim C1: determinism instantiated at a concrete input. -/
theorem claim_C1_auth_header_witness :
    generateLMv1AuthHeader "id" "key" "GET" "/device/devices" "1700000000000" "" =
      generateLMv1AuthHeader "id" "key" "GET" "/device/devices" "1700000000000" "" :=
  claim_C1_auth_header.2 "id" "id" "key" "key" "GET" "GET" "/device/devices"
    "/device/devices" "1700000000000" "1700000000000" "" "" rfl rfl rfl rfl rfl rfl

/-- Claim C6: the string fed into the signature is byte-identical to the
request body actually sent — when `data` is attached both equal its JSON
serialization, and when no body is attached the signature is computed over
the empty string. -/
theorem claim_C6_body_matches_signature (portalDetails : Portal)
    (httpVerb resourcePath : String) (data : Option Json) (epoch : String) :
    (makeApiRequestBuild portalDetails httpVerb resourcePath data epoch).authHeader =
      generateLMv1AuthHeader portalDetails.API_ACCESS_ID portalDetails.API_ACCESS_KEY
        httpVerb resourcePath epoch
        ((makeApiRequestBuild portalDetails httpVerb resourcePath data epoch).body.getD "") ∧
    (makeApiRequestBuild portalDetails httpVerb resourcePath data epoch).body =
      (match data with
       | some d => if d.truthy then some d.stringify else none
       | none => none) := by
  cases data with
  | none => exact ⟨rfl, rfl⟩
  | some d =>
    by_cases ht : d.truthy
    · constructor <;> simp [makeApiRequestBuild, ht]
    · constructor <;> simp [makeApiRequestBuild, ht]

/-- Claim C5 counterexample: a DataSource definition whose collector
attribute declares the `powerShell` script type still has its collection
script written as `collection.groovy` — `pullDataSource` never consults the
declared script type, so "extension chosen by the definition's declared
script-type field" fails for DataSource pulls. -/
theorem claim_C5_counterexample :
    powerShellDsDef.collectorAttribute =
      some { groovyScript := some "Get-Date", scriptType := some "powerShell" } ∧
    (pullDataSourceWrites "NoSQL" "42" "acme" "NoSQL Stats" "2026-10-12T00:00:00Z"
        powerShellDsDef).map Prod.fst =
      ["NoSQL.json", "manifest.json", "discovery.groovy", "collection.groovy"] ∧
    "collection.ps1" ∉
      (pullDataSourceWrites "NoSQL" "42" "acme" "NoSQL Stats" "2026-10-12T00:00:00Z"
        powerShellDsDef).map Prod.fst := by
  decide

/-- Claim C5 (amended): pulling a DataSource whose definition carries both a
truthy discovery script and a truthy collection script writes exactly one
module JSON file, one manifest.json, and two script files — but both script
files always get the `.groovy` extension, regardless of any declared
script-type field. -/
theorem claim_C5_pull_writes (dataSourceName dataSourceId portalName
    displayName pullDate : String) (d : DataSourceDefinition)
    (adc : AutoDiscoveryConfig) (m : ADMethod) (discoveryScript : String)
    (ca : CollectorAttribute) (collectionScript : String)
    (hadc : d.autoDiscoveryConfig = some adc) (hm : adc.method = some m)
    (hds : m.groovyScript = some discoveryScript)
    (hdsne : ¬discoveryScript.isEmpty = true)
    (hca : d.collectorAttribute = some ca)
    (hcs : ca.groovyScript = some collectionScript)
    (hcsne : ¬collectionScript.isEmpty = true) :
    pullDataSourceWrites dataSourceName dataSourceId portalName displayName
        pullDate d =
      [(dataSourceName ++ ".json", .moduleJson d),
       ("manifest.json", .manifestJson
         ⟨dataSourceName, displayName, dataSourceId, portalName, "DataSource",
          pullDate⟩),
       ("discovery.groovy", .scriptFile discoveryScript),
       ("collection.groovy", .scriptFile collectionScript)] := by
  simp [pullDataSourceWrites, hadc, hm, hds, hca, hcs, hdsne, hcsne]

/-- Witness for claim C5: a concrete pull with no declared script type
writes the four files with `.groovy` script extensions. -/
theorem claim_C5_pull_writes_witness :
    pullDataSourceWrites "Proc" "7" "acme" "Processes" "2026-10-12T00:00:00Z"
        groovyDsDef =
      [("Proc.json", .moduleJson groovyDsDef),
       ("manifest.json", .manifestJson
         ⟨"Proc", "Processes", "7", "acme", "DataSource", "2026-10-12T00:00:00Z"⟩),
       ("discovery.groovy", .scriptFile "discover()"),
       ("collection.groovy", .scriptFile "collect()")] :=
  claim_C5_pull_writes "Proc" "7" "acme" "Processes" "2026-10-12T00:00:00Z"
    groovyDsDef { method := some { groovyScript := some "discover()", type := none } }
    { groovyScript := some "discover()", type := none } "discover()"
    { groovyScript := some "collect()", scriptType := none } "collect()"
    rfl rfl rfl (by decide) rfl rfl (by decide)

/-- Claim C10: `setActivePortal p` sets the active-portal field to `p`,
clears the five active-collector and active-device selection fields, and
leaves every other workspace-state key unchanged. -/
theorem claim_C10_set_active_portal (p : String) (st : WState) :
    setActivePortal p st "logicmonitor.activePortal" = some (.vStr p) ∧
    setActivePortal p st "logicmonitor.activeCollectorId" = none ∧
    setActivePortal p st "logicmonitor.activeCollectorDescription" = none ∧
    setActivePortal p st "logicmonitor.activeDeviceId" = none ∧
    setActivePortal p st "logicmonitor.activeDeviceDisplayName" = none ∧
    setActivePortal p st "logicmonitor.activeDeviceHostname" = none ∧
    ∀ k, k ∉ setActivePortalKeys → setActivePortal p st k = st k := by
  refine ⟨rfl, rfl, rfl, rfl, rfl, rfl, ?_⟩
  intro k hk
  simp only [setActivePortalKeys, List.mem_cons, List.not_mem_nil, or_false,
    not_or] at hk
  obtain ⟨h1, h2, h3, h4, h5, h6⟩ := hk
  simp [setActivePortal, wsUpdate, h1, h2, h3, h4, h5, h6]

/-- Witness for claim C10: a key outside the six written ones keeps its
value. -/
theorem claim_C10_set_active_portal_witness :
    setActivePortal "acme" (fun _ => none) "logicmonitor.debugEnabled" = none :=
  (claim_C10_set_active_portal "acme" (fun _ => none)).2.2.2.2.2.2
    "logicmonitor.debugEnabled" (by decide)

end LMCoreTool

